import Mathlib

/-!
Verification of the euromedia cache-consistency layer.

The definitions below are a shallow embedding of the repository's
cache-checked CRUD use cases and controllers:
 - `FetchUserUseCase`, `UpdateUserUseCase`, `DeleteUserUseCase` from
   `src/use-cases/user.use-case.ts` (src/unnamed/part_001),
 - `UserController.getUsers` from `src/server/src/controllers/user.controller.ts`,
 - `CommentController.getComments` from `src/server/src/controllers/comment.controller.ts`.

JavaScript truthiness on optional strings (`undefined` and `""` are falsy)
is modelled by `truthy`; the nullish-coalescing operator `??` used by the
controller keeps an empty string, which `truthy` does not — both are
modelled exactly as written in the source.

Collaborators whose sources are not part of the four given files
(the shared lru cache from `config/lru`, the persistence services, the
`validateObjectId` helper of `APIUseCase`, and the comment fetch use case)
are modelled from the spec, as marked on each such definition.
-/

namespace Euromedia

/-- A user entity snapshot. The claims never inspect user fields, only
compare snapshots, so the record is abstract. -/
structure User where
  uid : Nat
deriving DecidableEq, Repr

/-- A comment entity snapshot, abstract like `User`. -/
structure Comment where
  cid : Nat
deriving DecidableEq, Repr

/-- A value stored in the process-wide cache: the controllers store either a
single entity or a whole collection (`cache.set(cachedKey, data)` where
`data : User | Users` resp. `Comment | Comments`). -/
inductive CacheVal where
  | user (u : User)
  | users (l : List User)
  | comment (c : Comment)
  | comments (l : List Comment)
deriving DecidableEq, Repr

/-- A cache key. `none` models the JavaScript `undefined` key that
`UserController.getUsers` can pass to `cache.set` on a list-all query
(`req.query.id ?? req.query.email!` with neither present). -/
abbrev CKey := Option String

/-- Modelled from the spec: the BoundedCache of `config/lru` (not among the
given sources), §4.2 — a fixed-capacity LRU map; entries are kept
most-recent-first; `get` and `set` update recency, `has` does not. -/
structure Cache where
  capacity : Nat
  entries : List (CKey × CacheVal)
deriving DecidableEq, Repr

/-- Pure lookup of the value stored at a key (no recency update);
used to state what the cache contains. -/
def Cache.lookup (c : Cache) (k : CKey) : Option CacheVal :=
  (c.entries.find? (fun e => e.1 == k)).map (fun e => e.2)

/-- Modelled from the spec: `cache.has(key)` — membership test, no
recency update. -/
def Cache.has (c : Cache) (k : CKey) : Bool :=
  (c.entries.find? (fun e => e.1 == k)).isSome

/-- Modelled from the spec: `cache.get(key)` — returns the stored value and,
on a hit, moves the entry to the front (recency update); a miss leaves the
cache unchanged. -/
def Cache.get (c : Cache) (k : CKey) : Option CacheVal × Cache :=
  match c.entries.find? (fun e => e.1 == k) with
  | none => (none, c)
  | some e => (some e.2, ⟨c.capacity, e :: c.entries.filter (fun x => !(x.1 == k))⟩)

/-- Modelled from the spec: `cache.set(key, value)` — insert or overwrite at
the front, then evict beyond capacity (LRU eviction removes the
oldest-by-recency entries at the tail). -/
def Cache.set (c : Cache) (k : CKey) (v : CacheVal) : Cache :=
  ⟨c.capacity, ((k, v) :: c.entries.filter (fun x => !(x.1 == k))).take c.capacity⟩

/-- JavaScript truthiness of an optional string: `undefined` and the empty
string are falsy, every other string is truthy. -/
def truthy : Option String → Bool
  | none => false
  | some s => if s = "" then false else true

/-! ### The email regular expression of `UserUseCase.validateEmail`

`/^[a-zA-Z0-9.!#$%&...~-]+@[a-zA-Z0-9](?:[a-zA-Z0-9-]{0,61}[a-zA-Z0-9])?`
`(?:\.[a-zA-Z0-9](?:[a-zA-Z0-9-]{0,61}[a-zA-Z0-9])?)*$/`

Neither the local-part character class nor the domain labels may contain
`@`, and labels may not contain `.`, so the anchored match decomposes
uniquely: split at the single `@`, then split the domain at every `.`. -/

/-- Characters allowed in the local part of the email regular expression:
alphanumerics plus (by char code) `! # $ % & ' * + - . / = ? ^ _`,
backquote, vertical bar, tilde and the two curly brackets. -/
def isLocalChar (c : Char) : Bool :=
  c.isAlphanum ||
    [33, 35, 36, 37, 38, 39, 42, 43, 45, 46, 47, 61, 63, 94, 95, 96,
     123, 124, 125, 126].contains c.toNat

/-- Characters allowed strictly inside a domain label: alphanumerics and
the hyphen (char code 45). -/
def isLabelInner (c : Char) : Bool :=
  c.isAlphanum || c.toNat == 45

/-- One domain label, `[a-zA-Z0-9](?:[a-zA-Z0-9-]{0,61}[a-zA-Z0-9])?`:
a single alphanumeric, or 2 to 63 characters whose first and last are
alphanumeric with alphanumerics/hyphens between. -/
def validLabel (l : List Char) : Bool :=
  match l with
  | [] => false
  | [c] => c.isAlphanum
  | c :: rest =>
    c.isAlphanum && rest.length ≤ 62 && rest.dropLast.all isLabelInner &&
      (match rest.getLast? with
       | some d => d.isAlphanum
       | none => false)

/-- Split a character list at every occurrence of a separator character
(the separators are dropped; empty pieces are kept). -/
def splitOnChar (sep : Char) : List Char → List (List Char)
  | [] => [[]]
  | c :: rest =>
    let r := splitOnChar sep rest
    if c == sep then [] :: r
    else
      match r with
      | [] => [[c]]
      | h :: t => (c :: h) :: t

/-- The fixed email format test of `UserUseCase.validateEmail`: one
non-empty run of local-part characters, one `@`, then dot-separated valid
domain labels. -/
def emailRegexMatch (s : String) : Bool :=
  match splitOnChar (Char.ofNat 64) s.toList with
  | [l, d] =>
    !l.isEmpty && l.all isLocalChar && ((splitOnChar (Char.ofNat 46) d).all validLabel)
  | _ => false

/-! ### Patch shapes and persistence service -/

/-- The flat update patch `UpdateUserDTO` accepted by
`UpdateUserUseCase.updateSchema`: five optional string fields. -/
structure UpdateUserDTO where
  firstname : Option String
  lastname : Option String
  password : Option String
  city : Option String
  country : Option String
deriving DecidableEq, Repr

/-- The `meta` sub-section of the nested update shape. -/
structure UserMeta where
  firstname : Option String
  lastname : Option String
deriving DecidableEq, Repr

/-- The `auth` sub-section of the nested update shape. -/
structure UserAuth where
  password : Option String
deriving DecidableEq, Repr

/-- The `location` sub-section of the nested update shape. -/
structure UserLocation where
  city : Option String
  country : Option String
deriving DecidableEq, Repr

/-- The nested update shape `UpdateUserRequestBody` sent to the
persistence service: each sub-section optional. -/
structure UpdateUserRequestBody where
  meta : Option UserMeta
  auth : Option UserAuth
  location : Option UserLocation
deriving DecidableEq, Repr

/-- Modelled from the spec: the persistence service contract of §6
(`user.service.ts` is not among the given sources): async operations
returning an entity, an absent indicator (`Option`), or a propagated
upstream error (`Except.error` with an opaque payload). -/
structure UserService where
  getUserById : String → Except String (Option User)
  getUserByEmail : String → Except String (Option User)
  getAllUsers : Except String (List User)
  updateUserById : String → UpdateUserRequestBody → Except String (Option User)
  updateUserByEmail : String → UpdateUserRequestBody → Except String (Option User)
  deleteUserById : String → Except String (Option User)
  deleteUserByEmail : String → Except String (Option User)

/-- The lookup query destructured as `const { id, email } = input` in
every user use case: two optional string fields. -/
structure UserQueries where
  id : Option String
  email : Option String
deriving DecidableEq, Repr

/-- The HTTP error taxonomy raised by the use cases: `BadRequestError`,
`NotFoundError`, and an upstream persistence failure propagated unchanged. -/
inductive HttpError where
  | badRequest (msg : String)
  | notFound (msg : String)
  | upstream (msg : String)
deriving DecidableEq, Repr

/-- Decidable equality for `Except`, needed to evaluate concrete
use-case outcomes. -/
instance {ε α : Type} [DecidableEq ε] [DecidableEq α] : DecidableEq (Except ε α) := fun a b =>
  match a, b with
  | .error e, .error f => decidable_of_iff (e = f) (by simp)
  | .ok x, .ok y => decidable_of_iff (x = y) (by simp)
  | .error _, .ok _ => isFalse (by simp)
  | .ok _, .error _ => isFalse (by simp)

/-! ### FetchUserUseCase -/

/-- The outcome of one fetch use-case run: the returned value or raised
error, the cache afterwards, and how many times each persistence fetch
operation was invoked (for call-count assertions). -/
structure FetchOut where
  result : Except HttpError CacheVal
  cache : Cache
  idCalls : Nat
  emailCalls : Nat
  allCalls : Nat
deriving DecidableEq, Repr

namespace FetchUserUseCase

/-- `FetchUserUseCase.getById`: `validateObjectId` (inherited from
`APIUseCase`, not among the given sources — modelled from the spec §4.3
step 1 as an abstract validator `voi` returning the validated id or
failing, which raises a `BadRequestError`; the concrete message is a
placeholder no claim depends on), then `cache.get(query)` with the raw
query string, then on a cache miss `service.getUserById(id)` with the
validated id, raising `NotFoundError` when the user is absent. -/
def getById (svc : UserService) (voi : String → Option String) (c : Cache)
    (query : String) : FetchOut :=
  match voi query with
  | none => ⟨.error (.badRequest ("Invalid id \"" ++ query ++ "\"")), c, 0, 0, 0⟩
  | some id =>
    match c.get (some query) with
    | (some u, c1) => ⟨.ok u, c1, 0, 0, 0⟩
    | (none, c1) =>
      match svc.getUserById id with
      | .error e => ⟨.error (.upstream e), c1, 1, 0, 0⟩
      | .ok none =>
        ⟨.error (.notFound ("User with id \"" ++ id ++ "\" does not exist.")), c1, 1, 0, 0⟩
      | .ok (some u) => ⟨.ok (.user u), c1, 1, 0, 0⟩

/-- `FetchUserUseCase.getByEmail`: `validateEmail` first (raising
`BadRequestError` when the regular expression rejects), then
`cache.get(email)`, then on a miss `service.getUserByEmail(email)`,
raising a message-less `NotFoundError` when absent. -/
def getByEmail (svc : UserService) (c : Cache) (email : String) : FetchOut :=
  if emailRegexMatch email then
    match c.get (some email) with
    | (some u, c1) => ⟨.ok u, c1, 0, 0, 0⟩
    | (none, c1) =>
      match svc.getUserByEmail email with
      | .error e => ⟨.error (.upstream e), c1, 0, 1, 0⟩
      | .ok none => ⟨.error (.notFound ""), c1, 0, 1, 0⟩
      | .ok (some u) => ⟨.ok (.user u), c1, 0, 1, 0⟩
  else ⟨.error (.badRequest ("Invalid email \"" ++ email ++ "\"")), c, 0, 0, 0⟩

/-- `FetchUserUseCase.getAll`: fetch the full collection from
persistence; no cache interaction. -/
def getAll (svc : UserService) (c : Cache) : FetchOut :=
  match svc.getAllUsers with
  | .error e => ⟨.error (.upstream e), c, 0, 0, 1⟩
  | .ok users => ⟨.ok (.users users), c, 0, 0, 1⟩

/-- `FetchUserUseCase.execute`: `if (id) ... if (email) ... getAll()` —
JavaScript truthiness, so an empty-string id falls through to the email
branch and an empty-string email falls through to the list-all branch. -/
def execute (svc : UserService) (voi : String → Option String) (c : Cache)
    (input : UserQueries) : FetchOut :=
  if truthy input.id then getById svc voi c (input.id.getD "")
  else if truthy input.email then getByEmail svc c (input.email.getD "")
  else getAll svc c

end FetchUserUseCase

/-! ### UserController.getUsers -/

/-- The observable outcome of one `getUsers` request: the response data or
the error forwarded to `asyncHandler`, the `X-Cache-Status` header and
response message (absent when the use case threw before they were set),
the cache afterwards, and the persistence call counts. -/
structure CtrlOut where
  result : Except HttpError CacheVal
  cacheStatus : Option String
  message : Option String
  cache : Cache
  idCalls : Nat
  emailCalls : Nat
  allCalls : Nat
deriving DecidableEq, Repr

/-- The controller's key derivation `req.query.id ?? req.query.email!`:
nullish coalescing, so a present-but-empty id is kept (unlike the
truthiness test the use case applies). -/
def cachedKeyOf (q : UserQueries) : CKey :=
  match q.id with
  | some i => some i
  | none => q.email

/-- `UserController.getUsers`: run the fetch use case; on success derive
`cachedKey = req.query.id ?? req.query.email!`, and
`if (cachedKey && cache.has(cachedKey))` report HIT (appending
" (cached)" to the message), else report MISS and `cache.set(cachedKey,
data)` — including, on a list-all query, a set at the undefined key. An
error thrown by the use case propagates through `asyncHandler` before any
header or cache write. -/
def getUsers (svc : UserService) (voi : String → Option String) (c : Cache)
    (q : UserQueries) : CtrlOut :=
  let fo := FetchUserUseCase.execute svc voi c q
  match fo.result with
  | .error e => ⟨.error e, none, none, fo.cache, fo.idCalls, fo.emailCalls, fo.allCalls⟩
  | .ok data =>
    let cachedKey := cachedKeyOf q
    if truthy cachedKey && fo.cache.has cachedKey then
      ⟨.ok data, some "HIT", some "Fetch success. (cached)", fo.cache,
        fo.idCalls, fo.emailCalls, fo.allCalls⟩
    else
      ⟨.ok data, some "MISS", some "Fetch success.", fo.cache.set cachedKey data,
        fo.idCalls, fo.emailCalls, fo.allCalls⟩

/-! ### UpdateUserUseCase and DeleteUserUseCase -/

/-- The outcome of one mutation use-case run: result or error, the cache
afterwards, and the number of id-keyed and email-keyed persistence write
calls. -/
structure MutOut where
  result : Except HttpError User
  cache : Cache
  idCalls : Nat
  emailCalls : Nat
deriving DecidableEq, Repr

namespace UpdateUserUseCase

/-- `UpdateUserUseCase.mapToUpdateStructure`: translate the flat patch to
the nested shape. Each `if` tests JavaScript truthiness
(`flat.firstname || flat.lastname` etc.), and an included sub-section
copies its constituent fields verbatim (absent stays absent). -/
def mapToUpdateStructure (flat : UpdateUserDTO) : UpdateUserRequestBody :=
  { meta :=
      if truthy flat.firstname || truthy flat.lastname then
        some ⟨flat.firstname, flat.lastname⟩
      else none
    auth :=
      if truthy flat.password then some ⟨flat.password⟩ else none
    location :=
      if truthy flat.city || truthy flat.country then
        some ⟨flat.city, flat.country⟩
      else none }

/-- `UpdateUserUseCase.execute`: parse the body (`updateSchema.parse` is
the identity on a well-typed `UpdateUserDTO`), map it to the nested
shape, then `if (id)` update by validated id, `else if (email)` update by
validated email, else throw `BadRequestError("No query is provided.")`;
a `null` result throws `NotFoundError`. The trailing
`updatedUser.save()` is a persistence-side effect with no cache
interaction. The use case never touches the cache. -/
def execute (svc : UserService) (voi : String → Option String) (c : Cache)
    (queries : UserQueries) (body : UpdateUserDTO) : MutOut :=
  let updateData := mapToUpdateStructure body
  if truthy queries.id then
    match voi (queries.id.getD "") with
    | none =>
      ⟨.error (.badRequest ("Invalid id \"" ++ queries.id.getD "" ++ "\"")), c, 0, 0⟩
    | some validId =>
      match svc.updateUserById validId updateData with
      | .error e => ⟨.error (.upstream e), c, 1, 0⟩
      | .ok none => ⟨.error (.notFound ""), c, 1, 0⟩
      | .ok (some u) => ⟨.ok u, c, 1, 0⟩
  else if truthy queries.email then
    if emailRegexMatch (queries.email.getD "") then
      match svc.updateUserByEmail (queries.email.getD "") updateData with
      | .error e => ⟨.error (.upstream e), c, 0, 1⟩
      | .ok none => ⟨.error (.notFound ""), c, 0, 1⟩
      | .ok (some u) => ⟨.ok u, c, 0, 1⟩
    else
      ⟨.error (.badRequest ("Invalid email \"" ++ queries.email.getD "" ++ "\"")), c, 0, 0⟩
  else ⟨.error (.badRequest "No query is provided."), c, 0, 0⟩

end UpdateUserUseCase

namespace DeleteUserUseCase

/-- `DeleteUserUseCase.execute`: `if (id)` delete by validated id,
`else if (email)` delete by validated email, else throw
`BadRequestError("No query is provided.")`; a `null` result throws
`NotFoundError("User not found.")`. The use case never touches the
cache. -/
def execute (svc : UserService) (voi : String → Option String) (c : Cache)
    (query : UserQueries) : MutOut :=
  if truthy query.id then
    match voi (query.id.getD "") with
    | none =>
      ⟨.error (.badRequest ("Invalid id \"" ++ query.id.getD "" ++ "\"")), c, 0, 0⟩
    | some validId =>
      match svc.deleteUserById validId with
      | .error e => ⟨.error (.upstream e), c, 1, 0⟩
      | .ok none => ⟨.error (.notFound "User not found."), c, 1, 0⟩
      | .ok (some u) => ⟨.ok u, c, 1, 0⟩
  else if truthy query.email then
    if emailRegexMatch (query.email.getD "") then
      match svc.deleteUserByEmail (query.email.getD "") with
      | .error e => ⟨.error (.upstream e), c, 0, 1⟩
      | .ok none => ⟨.error (.notFound "User not found."), c, 0, 1⟩
      | .ok (some u) => ⟨.ok u, c, 0, 1⟩
    else
      ⟨.error (.badRequest ("Invalid email \"" ++ query.email.getD "" ++ "\"")), c, 0, 0⟩
  else ⟨.error (.badRequest "No query is provided."), c, 0, 0⟩

end DeleteUserUseCase

/-! ### Comment fetch path (for the collection-read claim) -/

/-- The sub-entity lookup query of the comment routes: a discriminator id
and an optional parent/association identifier (spec §3). -/
structure SubentityQueries where
  id : Option String
  parentId : Option String
deriving DecidableEq, Repr

/-- Modelled from the spec: `getCachedKey` of `utils/getCachedKey` (not
among the given sources), §4.1 — id present with a parent gives
`"<parentId>:<id>"`, id alone gives the id verbatim, no id gives no key. -/
def getCachedKey (q : SubentityQueries) : CKey :=
  match q.id with
  | some i =>
    match q.parentId with
    | some p => some (p ++ ":" ++ i)
    | none => some i
  | none => none

/-- Modelled from the spec: the comment persistence service contract of §6
(`comment.service.ts` is not among the given sources). -/
structure CommentService where
  getAllComments : Except String (List Comment)
  getCommentByKey : String → Except String (Option Comment)

/-- The outcome of one comment fetch: result or error, cache afterwards,
persistence fetch call count. -/
structure CFetchOut where
  result : Except HttpError CacheVal
  cache : Cache
  svcCalls : Nat
deriving DecidableEq, Repr

/-- Modelled from the spec: `FetchCommentsUseCase.execute`
(`comment.use-case.ts` is not among the given sources), §4.3 and the user
analogue — with no derivable key fetch the full collection from
persistence (no cache interaction); with a key, consult the cache, fall
back to persistence, and throw `NotFoundError` when absent. Population
is done by the controller, as in the user path. -/
def FetchCommentsUseCase.execute (svc : CommentService) (c : Cache)
    (q : SubentityQueries) : CFetchOut :=
  match getCachedKey q with
  | none =>
    match svc.getAllComments with
    | .error e => ⟨.error (.upstream e), c, 1⟩
    | .ok l => ⟨.ok (.comments l), c, 1⟩
  | some k =>
    match c.get (some k) with
    | (some v, c1) => ⟨.ok v, c1, 0⟩
    | (none, c1) =>
      match svc.getCommentByKey k with
      | .error e => ⟨.error (.upstream e), c1, 1⟩
      | .ok none => ⟨.error (.notFound ""), c1, 1⟩
      | .ok (some cm) => ⟨.ok (.comment cm), c1, 1⟩

/-- The observable outcome of one `getComments` request. -/
structure CCtrlOut where
  result : Except HttpError CacheVal
  cacheStatus : Option String
  message : Option String
  cache : Cache
  svcCalls : Nat
deriving DecidableEq, Repr

/-- `CommentController.getComments`: run the use case; on success compute
`cachedKey = getCachedKey(req.query)` and `isCached = cache.has(cachedKey)`,
set the `X-Cache-Status` header from `isCached`, and
`if (cachedKey && data && !isCached) cache.set(cachedKey, data)` — `data`
is always truthy (a non-null object or array), so only the key guard and
`!isCached` decide. The message is `"Fetch success (cached)."` on a hit
and `"Fetch success ."` (with the space) otherwise. -/
def getComments (svc : CommentService) (c : Cache) (q : SubentityQueries) : CCtrlOut :=
  let fo := FetchCommentsUseCase.execute svc c q
  match fo.result with
  | .error e => ⟨.error e, none, none, fo.cache, fo.svcCalls⟩
  | .ok data =>
    let cachedKey := getCachedKey q
    let isCached := fo.cache.has cachedKey
    let c2 :=
      if truthy cachedKey && !isCached then fo.cache.set cachedKey data
      else fo.cache
    ⟨.ok data, some (if isCached then "HIT" else "MISS"),
      some (if isCached then "Fetch success (cached)." else "Fetch success ."),
      c2, fo.svcCalls⟩

/-! ### Concrete fixtures for witnesses and counterexamples -/

/-- A first concrete user snapshot. -/
def userA : User := ⟨1⟩

/-- A second, distinct user snapshot (e.g. the post-update state). -/
def userB : User := ⟨2⟩

/-- A concrete comment snapshot. -/
def commentA : Comment := ⟨1⟩

/-- An object-id validator that accepts every string unchanged. -/
def voiOk : String → Option String := fun s => some s

/-- An empty cache of capacity 5. -/
def cEmpty5 : Cache := ⟨5, []⟩

/-- A cache of capacity 5 holding `userA` under key `"u1"`. -/
def cU1 : Cache := ⟨5, [(some "u1", .user userA)]⟩

/-- A persistence double where every operation succeeds: fetches find
`userA`, updates return `userB`, deletes return `userA`. -/
def svcFound : UserService :=
  { getUserById := fun _ => .ok (some userA)
    getUserByEmail := fun _ => .ok (some userA)
    getAllUsers := .ok [userA]
    updateUserById := fun _ _ => .ok (some userB)
    updateUserByEmail := fun _ _ => .ok (some userB)
    deleteUserById := fun _ => .ok (some userA)
    deleteUserByEmail := fun _ => .ok (some userA) }

/-- A persistence double where every entity is absent. -/
def svcAbsent : UserService :=
  { getUserById := fun _ => .ok none
    getUserByEmail := fun _ => .ok none
    getAllUsers := .ok []
    updateUserById := fun _ _ => .ok none
    updateUserByEmail := fun _ _ => .ok none
    deleteUserById := fun _ => .ok none
    deleteUserByEmail := fun _ => .ok none }

/-- A persistence double where every operation raises the upstream error
`"down"`. -/
def svcDown : UserService :=
  { getUserById := fun _ => .error "down"
    getUserByEmail := fun _ => .error "down"
    getAllUsers := .error "down"
    updateUserById := fun _ _ => .error "down"
    updateUserByEmail := fun _ _ => .error "down"
    deleteUserById := fun _ => .error "down"
    deleteUserByEmail := fun _ => .error "down" }

/-- A persistence double where only the email-keyed fetch succeeds; every
id-keyed operation errors, so a successful outcome proves the email path
was the one taken. -/
def svcEmailOnly : UserService :=
  { getUserById := fun _ => .error "id path used"
    getUserByEmail := fun _ => .ok (some userA)
    getAllUsers := .error "all path used"
    updateUserById := fun _ _ => .error "id path used"
    updateUserByEmail := fun _ _ => .ok (some userB)
    deleteUserById := fun _ => .error "id path used"
    deleteUserByEmail := fun _ => .ok (some userA) }

/-- A comment persistence double where every operation succeeds. -/
def csvcFound : CommentService :=
  { getAllComments := .ok [commentA]
    getCommentByKey := fun _ => .ok (some commentA) }

/-- The empty patch. -/
def bodyEmpty : UpdateUserDTO := ⟨none, none, none, none, none⟩

/-- A patch setting only `firstname := "X"`. -/
def bodyFirstX : UpdateUserDTO := ⟨some "X", none, none, none, none⟩

/-- A patch whose only provided field is the empty string. -/
def bodyFirstEmpty : UpdateUserDTO := ⟨some "", none, none, none, none⟩

/-! ### Cache lemmas -/

/-- A key the cache does not hold is not found in its entry list. -/
theorem find_of_has_false {c : Cache} {k : CKey} (h : c.has k = false) :
    c.entries.find? (fun e => e.1 == k) = none := by
  unfold Cache.has at h
  cases hf : c.entries.find? (fun e => e.1 == k) with
  | none => rfl
  | some e => rw [hf] at h; simp at h

/-- `get` on a key the cache does not hold returns no value and leaves the
cache unchanged. -/
theorem get_of_has_false {c : Cache} {k : CKey} (h : c.has k = false) :
    c.get k = (none, c) := by
  unfold Cache.get
  rw [find_of_has_false h]

/-- Immediately after `set`, the key maps to the stored value (the new
entry is the most recent, so it survives LRU truncation whenever the
capacity is positive). -/
theorem lookup_set_self (c : Cache) (k : CKey) (v : CacheVal) (h : 0 < c.capacity) :
    (c.set k v).lookup k = some v := by
  unfold Cache.set Cache.lookup
  obtain ⟨n, hn⟩ : ∃ n, c.capacity = n + 1 := ⟨c.capacity - 1, by omega⟩
  rw [hn]
  simp [List.take_succ_cons, List.find?]

/-! ### Fetch path reduction lemmas -/

/-- With a truthy id, `execute` dispatches to `getById` on the raw id. -/
theorem execute_id (svc : UserService) (voi : String → Option String) (c : Cache)
    (idv : String) (emv : Option String) (h : idv ≠ "") :
    FetchUserUseCase.execute svc voi c ⟨some idv, emv⟩
      = FetchUserUseCase.getById svc voi c idv := by
  unfold FetchUserUseCase.execute
  simp [truthy, h]

/-- With no id and a truthy email, `execute` dispatches to `getByEmail`. -/
theorem execute_email (svc : UserService) (voi : String → Option String) (c : Cache)
    (emv : String) (h : emv ≠ "") :
    FetchUserUseCase.execute svc voi c ⟨none, some emv⟩
      = FetchUserUseCase.getByEmail svc c emv := by
  unfold FetchUserUseCase.execute
  simp [truthy, h]

/-- An empty-string id is falsy, so with a truthy email `execute` falls
through to `getByEmail` even though the id field is present. -/
theorem execute_email_of_empty_id (svc : UserService) (voi : String → Option String)
    (c : Cache) (emv : String) (h : emv ≠ "") :
    FetchUserUseCase.execute svc voi c ⟨some "", some emv⟩
      = FetchUserUseCase.getByEmail svc c emv := by
  unfold FetchUserUseCase.execute
  simp [truthy, h]

/-- With neither identifier, `execute` dispatches to `getAll`. -/
theorem execute_all (svc : UserService) (voi : String → Option String) (c : Cache) :
    FetchUserUseCase.execute svc voi c ⟨none, none⟩ = FetchUserUseCase.getAll svc c := by
  unfold FetchUserUseCase.execute
  simp [truthy]

/-- `getById` on a validated id and a cache miss reduces to the
persistence outcome. -/
theorem getById_miss (svc : UserService) (voi : String → Option String) (c : Cache)
    (q vid : String) (hv : voi q = some vid) (hm : c.has (some q) = false) :
    FetchUserUseCase.getById svc voi c q
      = (match svc.getUserById vid with
         | .error e => ⟨.error (.upstream e), c, 1, 0, 0⟩
         | .ok none =>
           ⟨.error (.notFound ("User with id \"" ++ vid ++ "\" does not exist.")), c, 1, 0, 0⟩
         | .ok (some u) => ⟨.ok (.user u), c, 1, 0, 0⟩) := by
  unfold FetchUserUseCase.getById
  rw [hv, get_of_has_false hm]

/-- `getByEmail` on a well-formed email and a cache miss reduces to the
persistence outcome. -/
theorem getByEmail_miss (svc : UserService) (c : Cache) (emv : String)
    (hr : emailRegexMatch emv = true) (hm : c.has (some emv) = false) :
    FetchUserUseCase.getByEmail svc c emv
      = (match svc.getUserByEmail emv with
         | .error e => ⟨.error (.upstream e), c, 0, 1, 0⟩
         | .ok none => ⟨.error (.notFound ""), c, 0, 1, 0⟩
         | .ok (some u) => ⟨.ok (.user u), c, 0, 1, 0⟩) := by
  unfold FetchUserUseCase.getByEmail
  rw [hr, get_of_has_false hm]
  simp

/-- On a cache hit at a validated id, `getById` returns the cached value
and performs no persistence call. -/
theorem getById_hit (svc : UserService) (voi : String → Option String) (c : Cache)
    (q vid : String) (v : CacheVal) (hv : voi q = some vid)
    (hl : c.lookup (some q) = some v) :
    (FetchUserUseCase.getById svc voi c q).result = .ok v ∧
    (FetchUserUseCase.getById svc voi c q).idCalls = 0 ∧
    (FetchUserUseCase.getById svc voi c q).emailCalls = 0 ∧
    (FetchUserUseCase.getById svc voi c q).allCalls = 0 := by
  unfold FetchUserUseCase.getById Cache.get
  unfold Cache.lookup at hl
  cases hf : c.entries.find? (fun e => e.1 == some q) with
  | none => rw [hf] at hl; simp at hl
  | some e =>
    rw [hf] at hl
    simp at hl
    rw [hv]
    simp [hl]

/-- On a cache hit at a well-formed email, `getByEmail` returns the cached
value and performs no persistence call. -/
theorem getByEmail_hit (svc : UserService) (c : Cache) (emv : String) (v : CacheVal)
    (hr : emailRegexMatch emv = true) (hl : c.lookup (some emv) = some v) :
    (FetchUserUseCase.getByEmail svc c emv).result = .ok v ∧
    (FetchUserUseCase.getByEmail svc c emv).idCalls = 0 ∧
    (FetchUserUseCase.getByEmail svc c emv).emailCalls = 0 ∧
    (FetchUserUseCase.getByEmail svc c emv).allCalls = 0 := by
  unfold FetchUserUseCase.getByEmail Cache.get
  unfold Cache.lookup at hl
  cases hf : c.entries.find? (fun e => e.1 == some emv) with
  | none => rw [hf] at hl; simp at hl
  | some e =>
    rw [hf] at hl
    simp at hl
    rw [hr]
    simp [hl]

/-- `getById` never invokes the email-keyed or collection fetch. -/
theorem getById_counts (svc : UserService) (voi : String → Option String) (c : Cache)
    (q : String) :
    (FetchUserUseCase.getById svc voi c q).emailCalls = 0 ∧
    (FetchUserUseCase.getById svc voi c q).allCalls = 0 := by
  unfold FetchUserUseCase.getById
  repeat' split
  all_goals exact ⟨rfl, rfl⟩

/-- `getByEmail` never invokes the id-keyed or collection fetch. -/
theorem getByEmail_counts (svc : UserService) (c : Cache) (emv : String) :
    (FetchUserUseCase.getByEmail svc c emv).idCalls = 0 ∧
    (FetchUserUseCase.getByEmail svc c emv).allCalls = 0 := by
  unfold FetchUserUseCase.getByEmail
  repeat' split
  all_goals exact ⟨rfl, rfl⟩

/-- `getAll` never invokes a single-entity fetch. -/
theorem getAll_counts (svc : UserService) (c : Cache) :
    (FetchUserUseCase.getAll svc c).idCalls = 0 ∧
    (FetchUserUseCase.getAll svc c).emailCalls = 0 := by
  unfold FetchUserUseCase.getAll
  repeat' split
  all_goals exact ⟨rfl, rfl⟩

/-! ### Mutation frame lemmas -/

/-- The update use case never touches the cache. -/
theorem updateExecute_cache (svc : UserService) (voi : String → Option String)
    (c : Cache) (q : UserQueries) (body : UpdateUserDTO) :
    (UpdateUserUseCase.execute svc voi c q body).cache = c := by
  unfold UpdateUserUseCase.execute
  dsimp only
  repeat' split
  all_goals rfl

/-- The delete use case never touches the cache. -/
theorem deleteExecute_cache (svc : UserService) (voi : String → Option String)
    (c : Cache) (q : UserQueries) :
    (DeleteUserUseCase.execute svc voi c q).cache = c := by
  unfold DeleteUserUseCase.execute
  repeat' split
  all_goals rfl

/-! ### Controller reduction lemmas -/

/-- When the use case succeeds with an unchanged cache, a truthy derived
key and no pre-existing entry, the controller reports MISS and populates
the cache at the derived key. -/
theorem getUsers_ok_miss (svc : UserService) (voi : String → Option String) (c : Cache)
    (q : UserQueries) (v : CacheVal) (i j k : Nat)
    (h : FetchUserUseCase.execute svc voi c q = ⟨.ok v, c, i, j, k⟩)
    (hks : truthy (cachedKeyOf q) = true) (hm : c.has (cachedKeyOf q) = false) :
    getUsers svc voi c q
      = ⟨.ok v, some "MISS", some "Fetch success.", c.set (cachedKeyOf q) v, i, j, k⟩ := by
  unfold getUsers
  rw [h]
  dsimp only
  rw [hks, hm]
  rfl

/-- When the use case succeeds with an unchanged cache and the derived key
is falsy (absent or empty), the HIT test is short-circuited: the
controller reports MISS and still calls `cache.set` on that falsy key. -/
theorem getUsers_ok_falsy_key (svc : UserService) (voi : String → Option String)
    (c : Cache) (q : UserQueries) (v : CacheVal) (i j k : Nat)
    (h : FetchUserUseCase.execute svc voi c q = ⟨.ok v, c, i, j, k⟩)
    (hks : truthy (cachedKeyOf q) = false) :
    getUsers svc voi c q
      = ⟨.ok v, some "MISS", some "Fetch success.", c.set (cachedKeyOf q) v, i, j, k⟩ := by
  unfold getUsers
  rw [h]
  dsimp only
  rw [hks]
  rfl

/-- When the use case throws, `asyncHandler` forwards the error before any
header is set or cache write happens. -/
theorem getUsers_err (svc : UserService) (voi : String → Option String) (c : Cache)
    (q : UserQueries) (e : HttpError) (cc : Cache) (i j k : Nat)
    (h : FetchUserUseCase.execute svc voi c q = ⟨.error e, cc, i, j, k⟩) :
    getUsers svc voi c q = ⟨.error e, none, none, cc, i, j, k⟩ := by
  unfold getUsers
  rw [h]

/-- With two falsy identifiers (each absent or empty), `execute`
dispatches to `getAll`. -/
theorem execute_all_of_falsy (svc : UserService) (voi : String → Option String)
    (c : Cache) (q : UserQueries) (h1 : truthy q.id = false) (h2 : truthy q.email = false) :
    FetchUserUseCase.execute svc voi c q = FetchUserUseCase.getAll svc c := by
  unfold FetchUserUseCase.execute
  rw [h1, h2]
  rfl

/-! ### Claim C1 — cache population -/

/-- Claim C1 counterexample: with an empty cache and persistence holding
the user, `FetchUserUseCase.execute` by id `"abc"` returns the user, yet
immediately after `execute` returns the key `"abc"` is still not in the
cache — the use case itself never populates; the controller does,
afterwards. -/
theorem C1_counterexample :
    (FetchUserUseCase.execute svcFound voiOk cEmpty5 ⟨some "abc", none⟩).result
        = .ok (.user userA) ∧
    (FetchUserUseCase.execute svcFound voiOk cEmpty5 ⟨some "abc", none⟩).cache.has
        (some "abc") = false := by
  decide

/-- Claim C1 (amended): for every single-entity fetch request (by id or by
email) whose derived key is not in the cache before the call and for which
persistence returns an entity, the key is present in the cache mapped to
the returned value immediately after the controller's `getUsers` handler
(which performs the population right after `execute` returns) completes,
and the handler returns that value. -/
theorem C1_cache_population :
    (∀ (svc : UserService) (voi : String → Option String) (c : Cache)
        (idv vid : String) (emv : Option String) (u : User),
      0 < c.capacity → idv ≠ "" → voi idv = some vid →
      c.has (some idv) = false → svc.getUserById vid = .ok (some u) →
      (getUsers svc voi c ⟨some idv, emv⟩).result = .ok (.user u) ∧
      (getUsers svc voi c ⟨some idv, emv⟩).cache.lookup (some idv) = some (.user u)) ∧
    (∀ (svc : UserService) (voi : String → Option String) (c : Cache)
        (emv : String) (u : User),
      0 < c.capacity → emv ≠ "" → emailRegexMatch emv = true →
      c.has (some emv) = false → svc.getUserByEmail emv = .ok (some u) →
      (getUsers svc voi c ⟨none, some emv⟩).result = .ok (.user u) ∧
      (getUsers svc voi c ⟨none, some emv⟩).cache.lookup (some emv) = some (.user u)) := by
  constructor
  · intro svc voi c idv vid emv u hcap hid hv hm hs
    have hg : FetchUserUseCase.execute svc voi c ⟨some idv, emv⟩
        = ⟨.ok (.user u), c, 1, 0, 0⟩ := by
      rw [execute_id svc voi c idv emv hid, getById_miss svc voi c idv vid hv hm, hs]
    have hks : truthy (cachedKeyOf ⟨some idv, emv⟩) = true := by
      simp [cachedKeyOf, truthy, hid]
    have hc := getUsers_ok_miss svc voi c ⟨some idv, emv⟩ (.user u) 1 0 0 hg hks hm
    rw [hc]
    exact ⟨rfl, lookup_set_self c (cachedKeyOf ⟨some idv, emv⟩) (.user u) hcap⟩
  · intro svc voi c emv u hcap hem hr hm hs
    have hg : FetchUserUseCase.execute svc voi c ⟨none, some emv⟩
        = ⟨.ok (.user u), c, 0, 1, 0⟩ := by
      rw [execute_email svc voi c emv hem, getByEmail_miss svc c emv hr hm, hs]
    have hks : truthy (cachedKeyOf ⟨none, some emv⟩) = true := by
      simp [cachedKeyOf, truthy, hem]
    have hc := getUsers_ok_miss svc voi c ⟨none, some emv⟩ (.user u) 0 1 0 hg hks hm
    rw [hc]
    exact ⟨rfl, lookup_set_self c (cachedKeyOf ⟨none, some emv⟩) (.user u) hcap⟩

/-- Claim C1 witness: the amended population law evaluated at a concrete
id-based fetch with an empty capacity-5 cache. -/
theorem C1_witness :
    (getUsers svcFound voiOk cEmpty5 ⟨some "abc", none⟩).result = .ok (.user userA) ∧
    (getUsers svcFound voiOk cEmpty5 ⟨some "abc", none⟩).cache.lookup (some "abc")
      = some (.user userA) :=
  C1_cache_population.1 svcFound voiOk cEmpty5 "abc" "abc" none userA
    (by decide) (by decide) rfl (by decide) rfl

/-! ### Claim C2 — mutation invalidation -/

/-- Claim C2 counterexample: with `userA` cached under `"u1"`, the delete
use case succeeds yet `has("u1")` is still true afterwards; the update use
case succeeds returning the updated `userB` yet a subsequent fetch by
`"u1"` still serves the stale pre-update snapshot `userA` from the cache
with zero persistence calls. -/
theorem C2_counterexample :
    (DeleteUserUseCase.execute svcFound voiOk cU1 ⟨some "u1", none⟩).result = .ok userA ∧
    (DeleteUserUseCase.execute svcFound voiOk cU1 ⟨some "u1", none⟩).cache.has
        (some "u1") = true ∧
    (UpdateUserUseCase.execute svcFound voiOk cU1 ⟨some "u1", none⟩ bodyFirstX).result
        = .ok userB ∧
    (FetchUserUseCase.execute svcFound voiOk
        (UpdateUserUseCase.execute svcFound voiOk cU1 ⟨some "u1", none⟩ bodyFirstX).cache
        ⟨some "u1", none⟩).result = .ok (.user userA) ∧
    (FetchUserUseCase.execute svcFound voiOk
        (UpdateUserUseCase.execute svcFound voiOk cU1 ⟨some "u1", none⟩ bodyFirstX).cache
        ⟨some "u1", none⟩).idCalls = 0 := by
  decide

/-- Claim C2 (amended): the mutation use cases perform no cache
reconciliation at all — update and delete leave the cache exactly as it
was, so a pre-existing entry for the mutated identifier survives, and a
subsequent fetch by that identifier serves the stale pre-update snapshot
as a hit without re-fetching from persistence. -/
theorem C2_mutation_no_invalidation :
    (∀ (svc : UserService) (voi : String → Option String) (c : Cache)
        (q : UserQueries) (body : UpdateUserDTO),
      (UpdateUserUseCase.execute svc voi c q body).cache = c) ∧
    (∀ (svc : UserService) (voi : String → Option String) (c : Cache)
        (q : UserQueries),
      (DeleteUserUseCase.execute svc voi c q).cache = c) ∧
    (∀ (svc : UserService) (voi : String → Option String) (c : Cache)
        (idv vid : String) (v : CacheVal) (body : UpdateUserDTO),
      idv ≠ "" → voi idv = some vid → c.lookup (some idv) = some v →
      (FetchUserUseCase.execute svc voi
          (UpdateUserUseCase.execute svc voi c ⟨some idv, none⟩ body).cache
          ⟨some idv, none⟩).result = .ok v ∧
      (FetchUserUseCase.execute svc voi
          (UpdateUserUseCase.execute svc voi c ⟨some idv, none⟩ body).cache
          ⟨some idv, none⟩).idCalls = 0) := by
  refine ⟨updateExecute_cache, deleteExecute_cache, ?_⟩
  intro svc voi c idv vid v body hid hv hl
  rw [updateExecute_cache svc voi c ⟨some idv, none⟩ body,
    execute_id svc voi c idv none hid]
  exact ⟨(getById_hit svc voi c idv vid v hv hl).1,
    (getById_hit svc voi c idv vid v hv hl).2.1⟩

/-- Claim C2 witness: the amended no-invalidation law evaluated at the
concrete cached entry `"u1"`. -/
theorem C2_witness :
    (FetchUserUseCase.execute svcFound voiOk
        (UpdateUserUseCase.execute svcFound voiOk cU1 ⟨some "u1", none⟩ bodyFirstX).cache
        ⟨some "u1", none⟩).result = .ok (.user userA) ∧
    (FetchUserUseCase.execute svcFound voiOk
        (UpdateUserUseCase.execute svcFound voiOk cU1 ⟨some "u1", none⟩ bodyFirstX).cache
        ⟨some "u1", none⟩).idCalls = 0 :=
  C2_mutation_no_invalidation.2.2 svcFound voiOk cU1 "u1" "u1" (.user userA) bodyFirstX
    (by decide) rfl (by decide)

/-! ### Claim C3 — hit short-circuit -/

/-- Claim C3 (confirmed): a single-entity fetch whose key already maps to
`v` in the cache returns `v` and invokes no persistence fetch operation,
both on the id path (with a validated id) and on the email path (with a
well-formed email). -/
theorem C3_hit_short_circuit :
    (∀ (svc : UserService) (voi : String → Option String) (c : Cache)
        (idv vid : String) (emv : Option String) (v : CacheVal),
      idv ≠ "" → voi idv = some vid → c.lookup (some idv) = some v →
      (FetchUserUseCase.execute svc voi c ⟨some idv, emv⟩).result = .ok v ∧
      (FetchUserUseCase.execute svc voi c ⟨some idv, emv⟩).idCalls = 0 ∧
      (FetchUserUseCase.execute svc voi c ⟨some idv, emv⟩).emailCalls = 0 ∧
      (FetchUserUseCase.execute svc voi c ⟨some idv, emv⟩).allCalls = 0) ∧
    (∀ (svc : UserService) (voi : String → Option String) (c : Cache)
        (emv : String) (v : CacheVal),
      emv ≠ "" → emailRegexMatch emv = true → c.lookup (some emv) = some v →
      (FetchUserUseCase.execute svc voi c ⟨none, some emv⟩).result = .ok v ∧
      (FetchUserUseCase.execute svc voi c ⟨none, some emv⟩).idCalls = 0 ∧
      (FetchUserUseCase.execute svc voi c ⟨none, some emv⟩).emailCalls = 0 ∧
      (FetchUserUseCase.execute svc voi c ⟨none, some emv⟩).allCalls = 0) := by
  constructor
  · intro svc voi c idv vid emv v hid hv hl
    rw [execute_id svc voi c idv emv hid]
    exact getById_hit svc voi c idv vid v hv hl
  · intro svc voi c emv v hem hr hl
    rw [execute_email svc voi c emv hem]
    exact getByEmail_hit svc c emv v hr hl

/-- Claim C3 witness: the hit short-circuit evaluated at the concrete
cached entry `"u1"` against a persistence double that errors on every
call (so any persistence invocation would be visible). -/
theorem C3_witness :
    (FetchUserUseCase.execute svcDown voiOk cU1 ⟨some "u1", none⟩).result
        = .ok (.user userA) ∧
    (FetchUserUseCase.execute svcDown voiOk cU1 ⟨some "u1", none⟩).idCalls = 0 ∧
    (FetchUserUseCase.execute svcDown voiOk cU1 ⟨some "u1", none⟩).emailCalls = 0 ∧
    (FetchUserUseCase.execute svcDown voiOk cU1 ⟨some "u1", none⟩).allCalls = 0 :=
  C3_hit_short_circuit.1 svcDown voiOk cU1 "u1" "u1" none (.user userA)
    (by decide) rfl (by decide)

/-! ### Claim C4 — collection reads -/

/-- Claim C4 counterexample: on a list-all query (neither id nor email)
`UserController.getUsers` reports `X-Cache-Status: MISS` — there is no
NOT_APPLICABLE origin anywhere in the code — and executes
`cache.set(undefined, data)`, so the cache gains an entry at the
undefined key instead of being left unchanged. -/
theorem C4_counterexample :
    (getUsers svcFound voiOk cEmpty5 ⟨none, none⟩).cacheStatus = some "MISS" ∧
    (getUsers svcFound voiOk cEmpty5 ⟨none, none⟩).cache.has none = true := by
  decide

/-- Claim C4 (amended): on a list-all query the full collection is fetched
from persistence and reported with `X-Cache-Status: MISS` (there is no
NOT_APPLICABLE origin). The comment controller guards its `cache.set`
with the key, so it leaves the cache unchanged; the user controller does
not — it inserts the collection under the undefined key. -/
theorem C4_list_all :
    (∀ (svc : UserService) (voi : String → Option String) (c : Cache) (l : List User),
      svc.getAllUsers = .ok l →
      (getUsers svc voi c ⟨none, none⟩).result = .ok (.users l) ∧
      (getUsers svc voi c ⟨none, none⟩).cacheStatus = some "MISS" ∧
      (getUsers svc voi c ⟨none, none⟩).allCalls = 1 ∧
      (getUsers svc voi c ⟨none, none⟩).cache = c.set none (.users l)) ∧
    (∀ (csvc : CommentService) (c : Cache) (q : SubentityQueries) (l : List Comment),
      getCachedKey q = none → c.has none = false → csvc.getAllComments = .ok l →
      (getComments csvc c q).result = .ok (.comments l) ∧
      (getComments csvc c q).cacheStatus = some "MISS" ∧
      (getComments csvc c q).svcCalls = 1 ∧
      (getComments csvc c q).cache = c) := by
  constructor
  · intro svc voi c l hs
    have hg : FetchUserUseCase.execute svc voi c ⟨none, none⟩
        = ⟨.ok (.users l), c, 0, 0, 1⟩ := by
      rw [execute_all_of_falsy svc voi c ⟨none, none⟩ rfl rfl]
      unfold FetchUserUseCase.getAll
      rw [hs]
    have hc := getUsers_ok_falsy_key svc voi c ⟨none, none⟩ (.users l) 0 0 1 hg rfl
    rw [hc]
    exact ⟨rfl, rfl, rfl, rfl⟩
  · intro csvc c q l hk hm hs
    have hg : FetchCommentsUseCase.execute csvc c q = ⟨.ok (.comments l), c, 1⟩ := by
      unfold FetchCommentsUseCase.execute
      rw [hk, hs]
    unfold getComments
    rw [hg]
    dsimp only
    rw [hk, hm]
    exact ⟨rfl, rfl, rfl, rfl⟩

/-- Claim C4 witness: the amended collection-read behavior evaluated on
concrete user and comment list-all requests with an empty cache. -/
theorem C4_witness :
    ((getUsers svcFound voiOk cEmpty5 ⟨none, none⟩).result = .ok (.users [userA]) ∧
      (getUsers svcFound voiOk cEmpty5 ⟨none, none⟩).cacheStatus = some "MISS" ∧
      (getUsers svcFound voiOk cEmpty5 ⟨none, none⟩).allCalls = 1 ∧
      (getUsers svcFound voiOk cEmpty5 ⟨none, none⟩).cache
        = cEmpty5.set none (.users [userA])) ∧
    ((getComments csvcFound cEmpty5 ⟨none, none⟩).result = .ok (.comments [commentA]) ∧
      (getComments csvcFound cEmpty5 ⟨none, none⟩).cacheStatus = some "MISS" ∧
      (getComments csvcFound cEmpty5 ⟨none, none⟩).svcCalls = 1 ∧
      (getComments csvcFound cEmpty5 ⟨none, none⟩).cache = cEmpty5) :=
  ⟨C4_list_all.1 svcFound voiOk cEmpty5 [userA] rfl,
   C4_list_all.2 csvcFound cEmpty5 ⟨none, none⟩ [commentA] rfl (by decide) rfl⟩

/-! ### Claim C5 — no negative caching -/

/-- Claim C5 (confirmed): when the key misses the cache and persistence
reports the entity absent, the fetch fails with a `NotFoundError` (with
the id-specific message on the id path, message-less on the email path),
the use case leaves the cache unchanged, and after the controller forwards
the error the cache still has no entry for the attempted key. -/
theorem C5_no_negative_caching :
    (∀ (svc : UserService) (voi : String → Option String) (c : Cache)
        (idv vid : String) (emv : Option String),
      idv ≠ "" → voi idv = some vid → c.has (some idv) = false →
      svc.getUserById vid = .ok none →
      (FetchUserUseCase.execute svc voi c ⟨some idv, emv⟩).result
          = .error (.notFound ("User with id \"" ++ vid ++ "\" does not exist.")) ∧
      (FetchUserUseCase.execute svc voi c ⟨some idv, emv⟩).cache = c ∧
      (getUsers svc voi c ⟨some idv, emv⟩).cache.has (some idv) = false) ∧
    (∀ (svc : UserService) (voi : String → Option String) (c : Cache) (emv : String),
      emv ≠ "" → emailRegexMatch emv = true → c.has (some emv) = false →
      svc.getUserByEmail emv = .ok none →
      (FetchUserUseCase.execute svc voi c ⟨none, some emv⟩).result
          = .error (.notFound "") ∧
      (FetchUserUseCase.execute svc voi c ⟨none, some emv⟩).cache = c ∧
      (getUsers svc voi c ⟨none, some emv⟩).cache.has (some emv) = false) := by
  constructor
  · intro svc voi c idv vid emv hid hv hm hs
    have hg : FetchUserUseCase.execute svc voi c ⟨some idv, emv⟩
        = ⟨.error (.notFound ("User with id \"" ++ vid ++ "\" does not exist.")), c, 1, 0, 0⟩ := by
      rw [execute_id svc voi c idv emv hid, getById_miss svc voi c idv vid hv hm, hs]
    have hc := getUsers_err svc voi c ⟨some idv, emv⟩
      (.notFound ("User with id \"" ++ vid ++ "\" does not exist.")) c 1 0 0 hg
    rw [hg, hc]
    exact ⟨rfl, rfl, hm⟩
  · intro svc voi c emv hem hr hm hs
    have hg : FetchUserUseCase.execute svc voi c ⟨none, some emv⟩
        = ⟨.error (.notFound ""), c, 0, 1, 0⟩ := by
      rw [execute_email svc voi c emv hem, getByEmail_miss svc c emv hr hm, hs]
    have hc := getUsers_err svc voi c ⟨none, some emv⟩ (.notFound "") c 0 1 0 hg
    rw [hg, hc]
    exact ⟨rfl, rfl, hm⟩

/-- Claim C5 witness: the no-negative-caching law evaluated at a concrete
id-based and the state of an empty capacity-5 cache, against a
persistence double where every entity is absent. -/
theorem C5_witness :
    (FetchUserUseCase.execute svcAbsent voiOk cEmpty5 ⟨some "abc", none⟩).result
        = .error (.notFound ("User with id \"" ++ "abc" ++ "\" does not exist.")) ∧
    (FetchUserUseCase.execute svcAbsent voiOk cEmpty5 ⟨some "abc", none⟩).cache
        = cEmpty5 ∧
    (getUsers svcAbsent voiOk cEmpty5 ⟨some "abc", none⟩).cache.has (some "abc")
        = false :=
  C5_no_negative_caching.1 svcAbsent voiOk cEmpty5 "abc" "abc" none
    (by decide) rfl (by decide) rfl

/-! ### Claim C6 — mutation identifier precondition -/

/-- Claim C6 counterexample: a mutation query carrying `both` identifiers
is not rejected: the update succeeds against persistence (one id-keyed
write) instead of failing with an invalid-request error before any write. -/
theorem C6_counterexample :
    (UpdateUserUseCase.execute svcFound voiOk cEmpty5 ⟨some "abc", some "a@b.io"⟩
        bodyFirstX).result = .ok userB ∧
    (UpdateUserUseCase.execute svcFound voiOk cEmpty5 ⟨some "abc", some "a@b.io"⟩
        bodyFirstX).idCalls = 1 := by
  decide

/-- Claim C6 (amended): a mutation requires at least one truthy identifier:
with both identifiers falsy (absent or empty) update and delete fail with
`BadRequestError("No query is provided.")` before any persistence write
and leave the cache untouched; a query with both identifiers present and a
non-empty id is not rejected — the id path is taken and the email-keyed
write is never invoked. -/
theorem C6_mutation_identifier_precondition :
    (∀ (svc : UserService) (voi : String → Option String) (c : Cache)
        (q : UserQueries) (body : UpdateUserDTO),
      truthy q.id = false → truthy q.email = false →
      UpdateUserUseCase.execute svc voi c q body
          = ⟨.error (.badRequest "No query is provided."), c, 0, 0⟩ ∧
      DeleteUserUseCase.execute svc voi c q
          = ⟨.error (.badRequest "No query is provided."), c, 0, 0⟩) ∧
    (∀ (svc : UserService) (voi : String → Option String) (c : Cache)
        (idv emv : String) (body : UpdateUserDTO),
      idv ≠ "" →
      (UpdateUserUseCase.execute svc voi c ⟨some idv, some emv⟩ body).emailCalls = 0 ∧
      (DeleteUserUseCase.execute svc voi c ⟨some idv, some emv⟩).emailCalls = 0) := by
  constructor
  · intro svc voi c q body h1 h2
    constructor
    · unfold UpdateUserUseCase.execute
      dsimp only
      rw [h1, h2]
      rfl
    · unfold DeleteUserUseCase.execute
      rw [h1, h2]
      rfl
  · intro svc voi c idv emv body h
    have ht : truthy (some idv) = true := by simp [truthy, h]
    constructor
    · unfold UpdateUserUseCase.execute
      dsimp only
      rw [if_pos ht]
      repeat' split
      all_goals rfl
    · unfold DeleteUserUseCase.execute
      rw [if_pos ht]
      repeat' split
      all_goals rfl

/-- Claim C6 witness: the amended identifier precondition evaluated at an
empty query (BadRequest, no writes) and at a query with both identifiers
(id precedence, no email-keyed write). -/
theorem C6_witness :
    (UpdateUserUseCase.execute svcFound voiOk cEmpty5 ⟨none, none⟩ bodyEmpty
        = ⟨.error (.badRequest "No query is provided."), cEmpty5, 0, 0⟩ ∧
      DeleteUserUseCase.execute svcFound voiOk cEmpty5 ⟨none, none⟩
        = ⟨.error (.badRequest "No query is provided."), cEmpty5, 0, 0⟩) ∧
    ((UpdateUserUseCase.execute svcFound voiOk cEmpty5 ⟨some "abc", some "a@b.io"⟩
        bodyEmpty).emailCalls = 0 ∧
      (DeleteUserUseCase.execute svcFound voiOk cEmpty5
        ⟨some "abc", some "a@b.io"⟩).emailCalls = 0) :=
  ⟨C6_mutation_identifier_precondition.1 svcFound voiOk cEmpty5 ⟨none, none⟩ bodyEmpty
      rfl rfl,
   C6_mutation_identifier_precondition.2 svcFound voiOk cEmpty5 "abc" "a@b.io" bodyEmpty
      (by decide)⟩

/-! ### Claim C7 — patch mapping -/

/-- Claim C7 counterexample: the patch providing only `firstname := ""`
has a present meta-constituent field, yet the mapped nested structure
contains no `meta` sub-section — JavaScript truthiness drops provided but
empty fields, refuting the present-iff-included direction. -/
theorem C7_counterexample :
    bodyFirstEmpty.firstname.isSome = true ∧
    (UpdateUserUseCase.mapToUpdateStructure bodyFirstEmpty).meta = none := by
  decide

/-- Claim C7 (amended): the translation includes a sub-section if and only
if at least one of its constituent fields is present with a truthy
(non-empty) value, and an included sub-section copies its constituent
fields verbatim from the patch — fields not provided stay absent, so no
unprovided field is included. -/
theorem C7_patch_mapping (flat : UpdateUserDTO) :
    ((UpdateUserUseCase.mapToUpdateStructure flat).meta.isSome
        = (truthy flat.firstname || truthy flat.lastname)) ∧
    ((UpdateUserUseCase.mapToUpdateStructure flat).auth.isSome = truthy flat.password) ∧
    ((UpdateUserUseCase.mapToUpdateStructure flat).location.isSome
        = (truthy flat.city || truthy flat.country)) ∧
    (∀ m, (UpdateUserUseCase.mapToUpdateStructure flat).meta = some m →
        m.firstname = flat.firstname ∧ m.lastname = flat.lastname) ∧
    (∀ a, (UpdateUserUseCase.mapToUpdateStructure flat).auth = some a →
        a.password = flat.password) ∧
    (∀ l, (UpdateUserUseCase.mapToUpdateStructure flat).location = some l →
        l.city = flat.city ∧ l.country = flat.country) := by
  unfold UpdateUserUseCase.mapToUpdateStructure
  refine ⟨?_, ?_, ?_, ?_, ?_, ?_⟩
  · dsimp only
    split <;> simp_all
  · dsimp only
    split <;> simp_all
  · dsimp only
    split <;> simp_all
  · intro m hm
    dsimp only at hm
    split at hm
    · injection hm with h
      subst h
      exact ⟨rfl, rfl⟩
    · exact Option.noConfusion hm
  · intro a ha
    dsimp only at ha
    split at ha
    · injection ha with h
      subst h
      rfl
    · exact Option.noConfusion ha
  · intro l hl
    dsimp only at hl
    split at hl
    · injection hl with h
      subst h
      exact ⟨rfl, rfl⟩
    · exact Option.noConfusion hl

/-- Claim C7 witness: the amended mapping law evaluated at the patch
`{firstname: "X"}`, including the verbatim field copy of the included
`meta` sub-section. -/
theorem C7_witness :
    ((UpdateUserUseCase.mapToUpdateStructure bodyFirstX).meta.isSome
        = (truthy bodyFirstX.firstname || truthy bodyFirstX.lastname)) ∧
    ((UserMeta.mk (some "X") none).firstname = bodyFirstX.firstname ∧
      (UserMeta.mk (some "X") none).lastname = bodyFirstX.lastname) :=
  ⟨(C7_patch_mapping bodyFirstX).1,
   (C7_patch_mapping bodyFirstX).2.2.2.1 ⟨some "X", none⟩ (by decide)⟩

/-! ### Claim C8 — upstream-failure atomicity -/

/-- Claim C8 (confirmed): whenever the persistence service raises an
error, every path — fetch by id, by email, or list-all (through the
controller), and update and delete by id or email — propagates that exact
error as an upstream failure and leaves the cache contents untouched. -/
theorem C8_upstream_failure_atomic :
    (∀ (svc : UserService) (voi : String → Option String) (c : Cache)
        (idv vid : String) (emv : Option String) (e : String),
      idv ≠ "" → voi idv = some vid → c.has (some idv) = false →
      svc.getUserById vid = .error e →
      (getUsers svc voi c ⟨some idv, emv⟩).result = .error (.upstream e) ∧
      (getUsers svc voi c ⟨some idv, emv⟩).cache = c) ∧
    (∀ (svc : UserService) (voi : String → Option String) (c : Cache)
        (emv : String) (e : String),
      emv ≠ "" → emailRegexMatch emv = true → c.has (some emv) = false →
      svc.getUserByEmail emv = .error e →
      (getUsers svc voi c ⟨none, some emv⟩).result = .error (.upstream e) ∧
      (getUsers svc voi c ⟨none, some emv⟩).cache = c) ∧
    (∀ (svc : UserService) (voi : String → Option String) (c : Cache) (e : String),
      svc.getAllUsers = .error e →
      (getUsers svc voi c ⟨none, none⟩).result = .error (.upstream e) ∧
      (getUsers svc voi c ⟨none, none⟩).cache = c) ∧
    (∀ (svc : UserService) (voi : String → Option String) (c : Cache)
        (idv vid : String) (emv : Option String) (body : UpdateUserDTO) (e : String),
      idv ≠ "" → voi idv = some vid →
      svc.updateUserById vid (UpdateUserUseCase.mapToUpdateStructure body) = .error e →
      UpdateUserUseCase.execute svc voi c ⟨some idv, emv⟩ body
          = ⟨.error (.upstream e), c, 1, 0⟩) ∧
    (∀ (svc : UserService) (voi : String → Option String) (c : Cache)
        (emv : String) (body : UpdateUserDTO) (e : String),
      emv ≠ "" → emailRegexMatch emv = true →
      svc.updateUserByEmail emv (UpdateUserUseCase.mapToUpdateStructure body) = .error e →
      UpdateUserUseCase.execute svc voi c ⟨none, some emv⟩ body
          = ⟨.error (.upstream e), c, 0, 1⟩) ∧
    (∀ (svc : UserService) (voi : String → Option String) (c : Cache)
        (idv vid : String) (emv : Option String) (e : String),
      idv ≠ "" → voi idv = some vid → svc.deleteUserById vid = .error e →
      DeleteUserUseCase.execute svc voi c ⟨some idv, emv⟩
          = ⟨.error (.upstream e), c, 1, 0⟩) ∧
    (∀ (svc : UserService) (voi : String → Option String) (c : Cache)
        (emv : String) (e : String),
      emv ≠ "" → emailRegexMatch emv = true → svc.deleteUserByEmail emv = .error e →
      DeleteUserUseCase.execute svc voi c ⟨none, some emv⟩
          = ⟨.error (.upstream e), c, 0, 1⟩) := by
  refine ⟨?_, ?_, ?_, ?_, ?_, ?_, ?_⟩
  · intro svc voi c idv vid emv e hid hv hm hs
    have hg : FetchUserUseCase.execute svc voi c ⟨some idv, emv⟩
        = ⟨.error (.upstream e), c, 1, 0, 0⟩ := by
      rw [execute_id svc voi c idv emv hid, getById_miss svc voi c idv vid hv hm, hs]
    rw [getUsers_err svc voi c ⟨some idv, emv⟩ (.upstream e) c 1 0 0 hg]
    exact ⟨rfl, rfl⟩
  · intro svc voi c emv e hem hr hm hs
    have hg : FetchUserUseCase.execute svc voi c ⟨none, some emv⟩
        = ⟨.error (.upstream e), c, 0, 1, 0⟩ := by
      rw [execute_email svc voi c emv hem, getByEmail_miss svc c emv hr hm, hs]
    rw [getUsers_err svc voi c ⟨none, some emv⟩ (.upstream e) c 0 1 0 hg]
    exact ⟨rfl, rfl⟩
  · intro svc voi c e hs
    have hg : FetchUserUseCase.execute svc voi c ⟨none, none⟩
        = ⟨.error (.upstream e), c, 0, 0, 1⟩ := by
      rw [execute_all_of_falsy svc voi c ⟨none, none⟩ rfl rfl]
      unfold FetchUserUseCase.getAll
      rw [hs]
    rw [getUsers_err svc voi c ⟨none, none⟩ (.upstream e) c 0 0 1 hg]
    exact ⟨rfl, rfl⟩
  · intro svc voi c idv vid emv body e hid hv hs
    have ht : truthy (some idv) = true := by simp [truthy, hid]
    unfold UpdateUserUseCase.execute
    dsimp only
    rw [if_pos ht]
    simp only [Option.getD_some]
    simp [hv, hs]
  · intro svc voi c emv body e hem hr hs
    have ht : truthy (some emv) = true := by simp [truthy, hem]
    have hn : ¬(truthy (none : Option String) = true) := by simp [truthy]
    unfold UpdateUserUseCase.execute
    dsimp only
    rw [if_neg hn, if_pos ht]
    simp only [Option.getD_some]
    rw [if_pos hr, hs]
  · intro svc voi c idv vid emv e hid hv hs
    have ht : truthy (some idv) = true := by simp [truthy, hid]
    unfold DeleteUserUseCase.execute
    rw [if_pos ht]
    simp only [Option.getD_some]
    simp [hv, hs]
  · intro svc voi c emv e hem hr hs
    have ht : truthy (some emv) = true := by simp [truthy, hem]
    have hn : ¬(truthy (none : Option String) = true) := by simp [truthy]
    unfold DeleteUserUseCase.execute
    rw [if_neg hn, if_pos ht]
    simp only [Option.getD_some]
    rw [if_pos hr, hs]

/-- Claim C8 witness: the atomicity law evaluated on all seven paths
against the persistence double that errors with `"down"` everywhere. -/
theorem C8_witness :
    ((getUsers svcDown voiOk cEmpty5 ⟨some "abc", none⟩).result
        = .error (.upstream "down") ∧
      (getUsers svcDown voiOk cEmpty5 ⟨some "abc", none⟩).cache = cEmpty5) ∧
    ((getUsers svcDown voiOk cEmpty5 ⟨none, some "a@b.io"⟩).result
        = .error (.upstream "down") ∧
      (getUsers svcDown voiOk cEmpty5 ⟨none, some "a@b.io"⟩).cache = cEmpty5) ∧
    ((getUsers svcDown voiOk cEmpty5 ⟨none, none⟩).result
        = .error (.upstream "down") ∧
      (getUsers svcDown voiOk cEmpty5 ⟨none, none⟩).cache = cEmpty5) ∧
    (UpdateUserUseCase.execute svcDown voiOk cEmpty5 ⟨some "abc", none⟩ bodyFirstX
        = ⟨.error (.upstream "down"), cEmpty5, 1, 0⟩) ∧
    (UpdateUserUseCase.execute svcDown voiOk cEmpty5 ⟨none, some "a@b.io"⟩ bodyFirstX
        = ⟨.error (.upstream "down"), cEmpty5, 0, 1⟩) ∧
    (DeleteUserUseCase.execute svcDown voiOk cEmpty5 ⟨some "abc", none⟩
        = ⟨.error (.upstream "down"), cEmpty5, 1, 0⟩) ∧
    (DeleteUserUseCase.execute svcDown voiOk cEmpty5 ⟨none, some "a@b.io"⟩
        = ⟨.error (.upstream "down"), cEmpty5, 0, 1⟩) :=
  ⟨C8_upstream_failure_atomic.1 svcDown voiOk cEmpty5 "abc" "abc" none "down"
      (by decide) rfl (by decide) rfl,
   C8_upstream_failure_atomic.2.1 svcDown voiOk cEmpty5 "a@b.io" "down"
      (by decide) (by decide) (by decide) rfl,
   C8_upstream_failure_atomic.2.2.1 svcDown voiOk cEmpty5 "down" rfl,
   C8_upstream_failure_atomic.2.2.2.1 svcDown voiOk cEmpty5 "abc" "abc" none bodyFirstX
      "down" (by decide) rfl rfl,
   C8_upstream_failure_atomic.2.2.2.2.1 svcDown voiOk cEmpty5 "a@b.io" bodyFirstX
      "down" (by decide) (by decide) rfl,
   C8_upstream_failure_atomic.2.2.2.2.2.1 svcDown voiOk cEmpty5 "abc" "abc" none
      "down" (by decide) rfl rfl,
   C8_upstream_failure_atomic.2.2.2.2.2.2 svcDown voiOk cEmpty5 "a@b.io" "down"
      (by decide) (by decide) rfl⟩

/-! ### Claim C9 — identifier precedence -/

/-- Claim C9 counterexample: the query `{id: "", email: "a@b.io"}` has
both identifiers present, yet the fetch succeeds against a persistence
double whose id path errors: the email lookup is the one invoked (one
email-keyed call, zero id-keyed calls), so the id-based lookup path is not
taken. -/
theorem C9_counterexample :
    (FetchUserUseCase.execute svcEmailOnly voiOk cEmpty5 ⟨some "", some "a@b.io"⟩).result
        = .ok (.user userA) ∧
    (FetchUserUseCase.execute svcEmailOnly voiOk cEmpty5
        ⟨some "", some "a@b.io"⟩).idCalls = 0 ∧
    (FetchUserUseCase.execute svcEmailOnly voiOk cEmpty5
        ⟨some "", some "a@b.io"⟩).emailCalls = 1 := by
  decide

/-- Claim C9 (amended): with both identifiers present the derived cache
key is always the id value (nullish coalescing keeps even an empty id),
and the id-based lookup path is taken exactly when the id is non-empty:
a non-empty id never triggers an email-keyed or collection fetch, while an
empty-string id falls through past the id-based lookup (zero id-keyed
calls). -/
theorem C9_identifier_precedence :
    (∀ (svc : UserService) (voi : String → Option String) (c : Cache)
        (idv emv : String),
      idv ≠ "" →
      cachedKeyOf ⟨some idv, some emv⟩ = some idv ∧
      (FetchUserUseCase.execute svc voi c ⟨some idv, some emv⟩).emailCalls = 0 ∧
      (FetchUserUseCase.execute svc voi c ⟨some idv, some emv⟩).allCalls = 0) ∧
    (∀ (svc : UserService) (voi : String → Option String) (c : Cache) (emv : String),
      cachedKeyOf ⟨some "", some emv⟩ = some "" ∧
      (FetchUserUseCase.execute svc voi c ⟨some "", some emv⟩).idCalls = 0) := by
  constructor
  · intro svc voi c idv emv h
    rw [execute_id svc voi c idv (some emv) h]
    exact ⟨rfl, getById_counts svc voi c idv⟩
  · intro svc voi c emv
    refine ⟨rfl, ?_⟩
    by_cases hemv : emv = ""
    · subst hemv
      rw [execute_all_of_falsy svc voi c ⟨some "", some ""⟩ rfl rfl]
      exact (getAll_counts svc c).1
    · rw [execute_email_of_empty_id svc voi c emv hemv]
      exact (getByEmail_counts svc c emv).1

/-- Claim C9 witness: the amended precedence law evaluated at the queries
`{id: "u1", email: "a@b.io"}` and `{id: "", email: "a@b.io"}`. -/
theorem C9_witness :
    (cachedKeyOf ⟨some "u1", some "a@b.io"⟩ = some "u1" ∧
      (FetchUserUseCase.execute svcFound voiOk cEmpty5
          ⟨some "u1", some "a@b.io"⟩).emailCalls = 0 ∧
      (FetchUserUseCase.execute svcFound voiOk cEmpty5
          ⟨some "u1", some "a@b.io"⟩).allCalls = 0) ∧
    (cachedKeyOf ⟨some "", some "a@b.io"⟩ = some "" ∧
      (FetchUserUseCase.execute svcFound voiOk cEmpty5
          ⟨some "", some "a@b.io"⟩).idCalls = 0) :=
  ⟨C9_identifier_precedence.1 svcFound voiOk cEmpty5 "u1" "a@b.io" (by decide),
   C9_identifier_precedence.2 svcFound voiOk cEmpty5 "a@b.io"⟩

/-! ### Claim C10 — email-format gate -/

/-- Claim C10 (confirmed): on the email path of fetch, update and delete,
a string rejected by the fixed email regular expression raises
`BadRequestError` before any cache lookup or persistence call: the use
case returns exactly the invalid-email error with the cache unchanged and
zero persistence calls of any kind. -/
theorem C10_email_gate (svc : UserService) (voi : String → Option String) (c : Cache)
    (emv : String) (body : UpdateUserDTO)
    (h1 : emv ≠ "") (h2 : emailRegexMatch emv = false) :
    FetchUserUseCase.execute svc voi c ⟨none, some emv⟩
        = ⟨.error (.badRequest ("Invalid email \"" ++ emv ++ "\"")), c, 0, 0, 0⟩ ∧
    UpdateUserUseCase.execute svc voi c ⟨none, some emv⟩ body
        = ⟨.error (.badRequest ("Invalid email \"" ++ emv ++ "\"")), c, 0, 0⟩ ∧
    DeleteUserUseCase.execute svc voi c ⟨none, some emv⟩
        = ⟨.error (.badRequest ("Invalid email \"" ++ emv ++ "\"")), c, 0, 0⟩ := by
  have ht : truthy (some emv) = true := by simp [truthy, h1]
  have hn : ¬(truthy (none : Option String) = true) := by simp [truthy]
  have hreg : ¬(emailRegexMatch emv = true) := by simp [h2]
  refine ⟨?_, ?_, ?_⟩
  · rw [execute_email svc voi c emv h1]
    unfold FetchUserUseCase.getByEmail
    rw [if_neg hreg]
  · unfold UpdateUserUseCase.execute
    dsimp only
    rw [if_neg hn, if_pos ht]
    simp only [Option.getD_some]
    rw [if_neg hreg]
  · unfold DeleteUserUseCase.execute
    rw [if_neg hn, if_pos ht]
    simp only [Option.getD_some]
    rw [if_neg hreg]

/-- Claim C10 witness: the email gate evaluated at the malformed email
`"no-at-sign"` (no `@`), against the always-succeeding persistence
double. -/
theorem C10_witness :
    FetchUserUseCase.execute svcFound voiOk cEmpty5 ⟨none, some "no-at-sign"⟩
        = ⟨.error (.badRequest ("Invalid email \"" ++ "no-at-sign" ++ "\"")),
            cEmpty5, 0, 0, 0⟩ ∧
    UpdateUserUseCase.execute svcFound voiOk cEmpty5 ⟨none, some "no-at-sign"⟩ bodyFirstX
        = ⟨.error (.badRequest ("Invalid email \"" ++ "no-at-sign" ++ "\"")),
            cEmpty5, 0, 0⟩ ∧
    DeleteUserUseCase.execute svcFound voiOk cEmpty5 ⟨none, some "no-at-sign"⟩
        = ⟨.error (.badRequest ("Invalid email \"" ++ "no-at-sign" ++ "\"")),
            cEmpty5, 0, 0⟩ :=
  C10_email_gate svcFound voiOk cEmpty5 "no-at-sign" bodyFirstX
    (by decide) (by decide)

end Euromedia
